import Mathlib

/-!
Shallow embedding of the Focus-Lock core and proofs about it: the unlock
evaluator (`src/main/services/unlock-service.ts`), the process monitor
(`src/main/services/process-monitor.ts`) and the focus-mode store
(`src/renderer/stores/sticky-note-store.ts`).  Effectful code is modelled by
explicit state passing; `Date.now()` reads and OS process-kill requests are
explicit parameters.
-/

namespace FocusLock

/-- Task status enumeration (`src/shared/types.ts`, `TaskStatus`). -/
inductive TaskStatus where
  | pending
  | completed
  | cancelled
deriving DecidableEq

/-- Task difficulty level (`src/shared/types.ts`, `TaskDifficulty`). -/
inductive TaskDifficulty where
  | easy
  | medium
  | hard
deriving DecidableEq

/-- The fields of `Task` (`src/shared/types.ts`) read by the unlock service.
The remaining fields (`id`, `title`, `description`, the timestamps) are never
inspected by any function modelled here. -/
structure Task where
  status : TaskStatus
  difficulty : TaskDifficulty
deriving DecidableEq

/-- JavaScript `Math.round (a / b)` for naturals `a`, `b` with `b > 0`:
half-up rounding, computed exactly on integers.  `halfRound_eq_floor` below
checks this formula against the mathematical definition `⌊a / b + 1 / 2⌋`. -/
def halfRound (a b : Nat) : Nat := (2 * a + b) / (2 * b)

/-- `UnlockConditionResult` (unlock-service.ts). -/
structure UnlockConditionResult where
  canUnlock : Bool
  completedTasks : Nat
  totalTasks : Nat
  completionPercentage : Nat
  remainingTasks : Nat
deriving DecidableEq

/-- `UnlockNotification` (unlock-service.ts).  The `type` field carries the
source's string-literal union
`'full_unlock' | 'partial_unlock' | 'progress_update'`. -/
structure UnlockNotification where
  type : String
  message : String
  completedTasks : Nat
  totalTasks : Nat
  xpEarned : Option Nat
deriving DecidableEq

/-- The mutable state of an `UnlockService` instance: its configuration
(`UnlockServiceConfig`) together with the tracking fields
`previousCompletionPercentage` and `notifiedThresholds`.  The source's
`Set<number>` of notified thresholds is modelled as a list queried by
membership; `checkUnlockThreshold` only ever inserts an element that is not
yet present.  The config field named `partialUnlockThresholds` in the source
is called `unlockThresholds` here. -/
structure UnlockState where
  autoUnlockOnComplete : Bool
  showNotifications : Bool
  unlockThresholds : List Nat
  previousCompletionPercentage : Nat
  notifiedThresholds : List Nat
deriving DecidableEq

/-- `DEFAULT_CONFIG` (unlock-service.ts:372) plus the constructor-time
tracking-field values of the `UnlockService` class. -/
def initialUnlockState : UnlockState :=
  { autoUnlockOnComplete := true
    showNotifications := true
    unlockThresholds := [50, 75]
    previousCompletionPercentage := 0
    notifiedThresholds := [] }

/-- `UnlockService.evaluateUnlockCondition` (unlock-service.ts:398). -/
def evaluateUnlockCondition (tasks : List Task) : UnlockConditionResult :=
  let totalTasks := tasks.length
  let completedTasks := (tasks.filter fun t => t.status == TaskStatus.completed).length
  let completionPercentage :=
    if totalTasks > 0 then halfRound (100 * completedTasks) totalTasks else 0
  { canUnlock := decide (totalTasks > 0) && decide (completedTasks = totalTasks)
    completedTasks := completedTasks
    totalTasks := totalTasks
    completionPercentage := completionPercentage
    remainingTasks := totalTasks - completedTasks }

/-- `UnlockService.areAllTasksCompleted` (unlock-service.ts:416). -/
def areAllTasksCompleted (tasks : List Task) : Bool :=
  if tasks.length = 0 then false
  else tasks.all fun t => t.status == TaskStatus.completed

/-- The threshold-scanning loop of `UnlockService.checkPartialUnlockThreshold`
(unlock-service.ts:427-436): the first configured threshold `t` with
`completionPercentage ≥ t`, `previousCompletionPercentage < t` and `t` not in
`notifiedThresholds`, scanned in configured order. -/
def findThreshold (pct prev : Nat) (notified : List Nat) : List Nat → Option Nat
  | [] => none
  | t :: ts =>
    if t ≤ pct ∧ prev < t ∧ t ∉ notified then some t
    else findThreshold pct prev notified ts

/-- `UnlockService.checkPartialUnlockThreshold` (unlock-service.ts:424):
returns the reached threshold (if any) together with the updated service state
(the `notifiedThresholds.add(threshold)` mutation). -/
def checkUnlockThreshold (st : UnlockState) (tasks : List Task) :
    Option Nat × UnlockState :=
  let cond := evaluateUnlockCondition tasks
  match findThreshold cond.completionPercentage st.previousCompletionPercentage
      st.notifiedThresholds st.unlockThresholds with
  | some t => (some t, { st with notifiedThresholds := st.notifiedThresholds ++ [t] })
  | none => (none, st)

/-- Per-task reward inside `UnlockService.calculateXPEarned`
(unlock-service.ts:508-523): 100 base XP scaled by the difficulty multiplier
(easy 0.75 = 3/4, medium 1.0, hard 1.5 = 3/2) and rounded with `Math.round`.
The products `100 * 0.75`, `100 * 1.0`, `100 * 1.5` are exact in IEEE
doubles, so exact rational rounding is faithful. -/
def xpForTask (d : TaskDifficulty) : Nat :=
  match d with
  | .easy => halfRound (100 * 3) 4
  | .medium => halfRound (100 * 1) 1
  | .hard => halfRound (100 * 3) 2

/-- `UnlockService.calculateXPEarned` (unlock-service.ts:503): sum of the
per-task rewards over tasks in `completed` status. -/
def calculateXPEarned (tasks : List Task) : Nat :=
  ((tasks.filter fun t => t.status == TaskStatus.completed).map
    fun t => xpForTask t.difficulty).sum

/-- `UnlockService.processTaskCompletion` (unlock-service.ts:445): the
stateful entry point.  Returns the produced notification (if any) and the
updated service state.  The registered callback receives the same
notification value and is not modelled separately. -/
def processTaskCompletion (st : UnlockState) (tasks : List Task) :
    Option UnlockNotification × UnlockState :=
  let cond := evaluateUnlockCondition tasks
  if cond.canUnlock then
    (some { type := "full_unlock"
            message := "All tasks completed! Focus Mode unlocked."
            completedTasks := cond.completedTasks
            totalTasks := cond.totalTasks
            xpEarned := some (calculateXPEarned tasks) },
     { st with previousCompletionPercentage := cond.completionPercentage })
  else
    match checkUnlockThreshold st tasks with
    | (some t, st') =>
      (some { type := "partial_unlock"
              message := toString t ++ "% complete! Keep going!"
              completedTasks := cond.completedTasks
              totalTasks := cond.totalTasks
              xpEarned := none },
       { st' with previousCompletionPercentage := cond.completionPercentage })
    | (none, st') =>
      if cond.completionPercentage ≠ st.previousCompletionPercentage then
        (some { type := "progress_update"
                message := toString cond.completedTasks ++ "/" ++
                  toString cond.totalTasks ++ " tasks completed"
                completedTasks := cond.completedTasks
                totalTasks := cond.totalTasks
                xpEarned := none },
         { st' with previousCompletionPercentage := cond.completionPercentage })
      else (none, st')

/-- `UnlockService.resetTracking` (unlock-service.ts:546). -/
def resetTracking (st : UnlockState) : UnlockState :=
  { st with previousCompletionPercentage := 0, notifiedThresholds := [] }

/-- The value of the local `reachedThreshold` computed inside one
`processTaskCompletion` call: `none` when the full-unlock branch is taken or
when no threshold is newly crossed. -/
def firedThreshold (st : UnlockState) (tasks : List Task) : Option Nat :=
  let cond := evaluateUnlockCondition tasks
  if cond.canUnlock then none
  else findThreshold cond.completionPercentage st.previousCompletionPercentage
    st.notifiedThresholds st.unlockThresholds

/-- The sequence of `reachedThreshold` values over a run of
`processTaskCompletion` calls against successive task-list snapshots. -/
def runFires (st : UnlockState) : List (List Task) → List (Option Nat)
  | [] => []
  | ts :: tss => firedThreshold st ts :: runFires (processTaskCompletion st ts).2 tss

/-- `ProcessInfo` (process-monitor.ts). -/
structure ProcessInfo where
  pid : Nat
  name : String
  executableName : String
deriving DecidableEq

/-- `RestrictedApp` (`src/shared/types.ts`). -/
structure RestrictedApp where
  id : String
  name : String
  executableName : String
  isEnabled : Bool
  isPreset : Bool
deriving DecidableEq

/-- `TerminationResult` (process-monitor.ts). -/
structure TerminationResult where
  success : Bool
  pid : Nat
  processName : String
  error : Option String
deriving DecidableEq

/-- JavaScript `String.prototype.toLowerCase`, as a map over the character
list of the string. -/
def lowerStr (s : String) : String := ⟨s.data.map Char.toLower⟩

/-- The matching step of `ProcessMonitor.detectRestrictedProcesses`
(process-monitor.ts:107-123), as a pure function of the scanned process list
and the restriction list.  The source's inner loop over `enabledApps` pushes
the process once and `break`s at the first enabled app whose lowercased
`executableName` equals the process's `executableName`; that is a filter with
an `any` test. -/
def detectRestrictedProcesses (running : List ProcessInfo)
    (restrictedApps : List RestrictedApp) : List ProcessInfo :=
  let enabledApps := restrictedApps.filter fun app => app.isEnabled
  running.filter fun p => enabledApps.any fun app =>
    p.executableName == lowerStr app.executableName

/-- The two `taskkill` request variants issued by
`ProcessMonitor.terminateProcess`: `taskkill /PID pid` (graceful) and
`taskkill /PID pid /F` (forced). -/
inductive KillCmd where
  | graceful (pid : Nat)
  | forced (pid : Nat)
deriving DecidableEq

/-- Outcome of one `execAsync` call: it resolves, or rejects with an error
message. -/
inductive ExecOutcome where
  | ok
  | failed (msg : String)
deriving DecidableEq

/-- `ProcessMonitor.terminateProcess` (process-monitor.ts:129-154).  `oracle`
gives the outcome of each OS termination request; `gracefulFirst` is
`this.config.gracefulTerminationFirst`.  Returns the `TerminationResult`
together with the list of requests issued, in order.  A rejected graceful
request is swallowed by the inner `catch` and escalates to the forced
request; a rejected forced request reaches the outer `catch`, which builds
the failure result from the error message. -/
def terminateProcess (gracefulFirst : Bool) (oracle : KillCmd → ExecOutcome)
    (pid : Nat) (processName : String) : TerminationResult × List KillCmd :=
  if gracefulFirst then
    match oracle (KillCmd.graceful pid) with
    | ExecOutcome.ok =>
      ({ success := true, pid := pid, processName := processName, error := none },
       [KillCmd.graceful pid])
    | ExecOutcome.failed _ =>
      match oracle (KillCmd.forced pid) with
      | ExecOutcome.ok =>
        ({ success := true, pid := pid, processName := processName, error := none },
         [KillCmd.graceful pid, KillCmd.forced pid])
      | ExecOutcome.failed msg =>
        ({ success := false, pid := pid, processName := processName, error := some msg },
         [KillCmd.graceful pid, KillCmd.forced pid])
  else
    match oracle (KillCmd.forced pid) with
    | ExecOutcome.ok =>
      ({ success := true, pid := pid, processName := processName, error := none },
       [KillCmd.forced pid])
    | ExecOutcome.failed msg =>
      ({ success := false, pid := pid, processName := processName, error := some msg },
       [KillCmd.forced pid])

/-- `FocusSession` (`src/shared/types.ts`).  The `generateId()` result has a
random suffix; the model's `genSessionId` keeps only the deterministic
`Date.now()` part.  Timestamps and durations are integers (milliseconds). -/
structure FocusSession where
  id : String
  startedAt : Int
  endedAt : Int
  duration : Int
  tasksCompleted : Int
  wasUnlockedNaturally : Bool
deriving DecidableEq

/-- The deterministic part of `generateId` (sticky-note-store.ts:330). -/
def genSessionId (now : Int) : String := toString now

/-- `FocusModeStoreState` (sticky-note-store.ts:275): the state fields of the
focus-mode store. -/
structure FocusModeState where
  isActive : Bool
  startedAt : Option Int
  totalFocusTime : Int
  currentSessionTime : Int
  restrictedApps : List RestrictedApp
  sessions : List FocusSession
  lastEmergencyUnlock : Option Int
  emergencyUnlockCooldown : Int
deriving DecidableEq

/-- `DEFAULT_RESTRICTED_APPS` (sticky-note-store.ts:265). -/
def defaultRestrictedApps : List RestrictedApp :=
  [{ id := "steam", name := "Steam", executableName := "steam.exe",
     isEnabled := true, isPreset := true },
   { id := "epic", name := "Epic Games", executableName := "EpicGamesLauncher.exe",
     isEnabled := true, isPreset := true },
   { id := "discord", name := "Discord", executableName := "Discord.exe",
     isEnabled := false, isPreset := true },
   { id := "spotify", name := "Spotify", executableName := "Spotify.exe",
     isEnabled := false, isPreset := true }]

/-- The store's initial state (sticky-note-store.ts:354-361). -/
def initialFocusModeState : FocusModeState :=
  { isActive := false
    startedAt := none
    totalFocusTime := 0
    currentSessionTime := 0
    restrictedApps := defaultRestrictedApps
    sessions := []
    lastEmergencyUnlock := none
    emergencyUnlockCooldown := 30 * 60 * 1000 }

/-- `startFocusMode` (sticky-note-store.ts:366). -/
def startFocusMode (now : Int) (st : FocusModeState) : FocusModeState :=
  { st with isActive := true, startedAt := some now, currentSessionTime := 0 }

/-- `stopFocusMode` (sticky-note-store.ts:378).  The source guard is
`if (!startedAt) return;`, which is taken both when `startedAt` is `null` and
when it is the falsy number `0`. -/
def stopFocusMode (now : Int) (wasNatural : Bool) (tasksCompleted : Int)
    (st : FocusModeState) : FocusModeState :=
  match st.startedAt with
  | none => st
  | some s =>
    if s = 0 then st
    else
      let duration := now - s
      { st with
        isActive := false
        startedAt := none
        currentSessionTime := 0
        totalFocusTime := st.totalFocusTime + duration
        sessions := st.sessions ++
          [{ id := genSessionId now, startedAt := s, endedAt := now,
             duration := duration, tasksCompleted := tasksCompleted,
             wasUnlockedNaturally := wasNatural }] }

/-- `updateSessionTime` (sticky-note-store.ts:407).  The guard
`if (!isActive || !startedAt) return;` is falsy-sensitive like
`stopFocusMode`. -/
def updateSessionTime (now : Int) (st : FocusModeState) : FocusModeState :=
  if !st.isActive then st
  else
    match st.startedAt with
    | none => st
    | some s => if s = 0 then st else { st with currentSessionTime := now - s }

/-- `canEmergencyUnlock` (sticky-note-store.ts:484).  The source guard
`if (!lastEmergencyUnlock) return true` is also taken for the falsy
timestamp `0`. -/
def canEmergencyUnlock (now : Int) (st : FocusModeState) : Bool :=
  if !st.isActive then false
  else
    match st.lastEmergencyUnlock with
    | none => true
    | some l => if l = 0 then true else decide (st.emergencyUnlockCooldown ≤ now - l)

/-- `emergencyUnlock` (sticky-note-store.ts:469): returns the boolean result
together with the updated store state. -/
def emergencyUnlock (now : Int) (st : FocusModeState) : Bool × FocusModeState :=
  if canEmergencyUnlock now st then
    (true, { stopFocusMode now false 0 st with lastEmergencyUnlock := some now })
  else (false, st)

/-- A `Partial<RestrictedApp>` update object, as taken by
`updateRestrictedApp`. -/
structure RestrictedAppPatch where
  id : Option String
  name : Option String
  executableName : Option String
  isEnabled : Option Bool
  isPreset : Option Bool
deriving DecidableEq

/-- JavaScript object spread `{ ...app, ...updates }` for a
`Partial<RestrictedApp>` update. -/
def applyPatch (p : RestrictedAppPatch) (app : RestrictedApp) : RestrictedApp :=
  { id := p.id.getD app.id
    name := p.name.getD app.name
    executableName := p.executableName.getD app.executableName
    isEnabled := p.isEnabled.getD app.isEnabled
    isPreset := p.isPreset.getD app.isPreset }

/-- `addRestrictedApp` (sticky-note-store.ts:421); `id` stands for the random
`generateId()` result. -/
def addRestrictedApp (id name executableName : String) (isEnabled : Bool)
    (st : FocusModeState) : FocusModeState :=
  { st with restrictedApps := st.restrictedApps ++
      [{ id := id, name := name, executableName := executableName,
         isEnabled := isEnabled, isPreset := false }] }

/-- `removeRestrictedApp` (sticky-note-store.ts:436): removes non-preset
entries only. -/
def removeRestrictedApp (id : String) (st : FocusModeState) : FocusModeState :=
  { st with restrictedApps :=
      st.restrictedApps.filter fun app => app.id != id || app.isPreset }

/-- `toggleRestrictedApp` (sticky-note-store.ts:447). -/
def toggleRestrictedApp (id : String) (st : FocusModeState) : FocusModeState :=
  { st with restrictedApps := st.restrictedApps.map fun app =>
      if app.id == id then { app with isEnabled := !app.isEnabled } else app }

/-- `updateRestrictedApp` (sticky-note-store.ts:458). -/
def updateRestrictedApp (id : String) (p : RestrictedAppPatch)
    (st : FocusModeState) : FocusModeState :=
  { st with restrictedApps := st.restrictedApps.map fun app =>
      if app.id == id then applyPatch p app else app }

/-- `resetFocusMode` (sticky-note-store.ts:530). -/
def resetFocusMode (st : FocusModeState) : FocusModeState :=
  { st with
    isActive := false
    startedAt := none
    currentSessionTime := 0
    lastEmergencyUnlock := none }

/-- One focus-mode store action invocation.  The `now` arguments stand for
the `Date.now()` reads performed inside the action. -/
inductive FocusOp where
  | startOp (now : Int)
  | stopOp (now : Int) (wasNatural : Bool) (tasksCompleted : Int)
  | tickOp (now : Int)
  | emergencyOp (now : Int)
  | resetOp
  | addAppOp (id name executableName : String) (isEnabled : Bool)
  | removeAppOp (id : String)
  | toggleAppOp (id : String)
  | updateAppOp (id : String) (patch : RestrictedAppPatch)

/-- Effect of one store action on the store state.  `emergencyUnlock` also
returns a boolean; only its state effect matters here. -/
def FocusOp.apply : FocusOp → FocusModeState → FocusModeState
  | .startOp now, st => startFocusMode now st
  | .stopOp now wasNatural tasksCompleted, st => stopFocusMode now wasNatural tasksCompleted st
  | .tickOp now, st => updateSessionTime now st
  | .emergencyOp now, st => (emergencyUnlock now st).2
  | .resetOp, st => resetFocusMode st
  | .addAppOp id name executableName isEnabled, st => addRestrictedApp id name executableName isEnabled st
  | .removeAppOp id, st => removeRestrictedApp id st
  | .toggleAppOp id, st => toggleRestrictedApp id st
  | .updateAppOp id patch, st => updateRestrictedApp id patch st

/-- `Date.now()` always returns a positive timestamp; an action invocation is
valid when every `Date.now()` read inside it is positive. -/
def FocusOp.validTime : FocusOp → Prop
  | .startOp now => 0 < now
  | .stopOp now _ _ => 0 < now
  | .tickOp now => 0 < now
  | .emergencyOp now => 0 < now
  | _ => True

/-- Store states reachable from the initial state through valid action
invocations. -/
inductive Reachable : FocusModeState → Prop where
  | init : Reachable initialFocusModeState
  | step (op : FocusOp) (st : FocusModeState) :
      Reachable st → op.validTime → Reachable (op.apply st)

/-- Invariant of the focus-mode store, established below for all reachable
states: the lifecycle invariants of the session state machine, plus
positivity of the stored timestamps (they are `Date.now()` values). -/
def StoreInv (st : FocusModeState) : Prop :=
  (st.isActive = false → st.startedAt = none ∧ st.currentSessionTime = 0) ∧
  (st.isActive = true → st.startedAt ≠ none) ∧
  (∀ s, st.startedAt = some s → 0 < s) ∧
  (∀ l, st.lastEmergencyUnlock = some l → 0 < l)

/-! Helper lemmas about the unlock evaluator. -/

/-- Sanity check for `halfRound`: it is the half-up rounding
`⌊a / b + 1 / 2⌋` of the exact quotient. -/
theorem halfRound_eq_floor (a b : Nat) (hb : 0 < b) :
    (halfRound a b : Int) = ⌊(a : Rat) / b + 1/2⌋ := by
  unfold halfRound
  have hb' : (b : Rat) ≠ 0 := Nat.cast_ne_zero.mpr hb.ne'
  have key : (a : Rat) / b + 1/2 = ((2 * a + b : Nat) : Rat) / ((2 * b : Nat) : Rat) := by
    push_cast
    field_simp
    ring
  rw [key, Rat.floor_natCast_div_natCast]
  exact Int.natCast_div _ _

/-- The threshold loop finds nothing when the previous percentage already
equals the current one. -/
theorem findThreshold_self (pct : Nat) (notified ts : List Nat) :
    findThreshold pct pct notified ts = none := by
  induction ts with
  | nil => rfl
  | cons t ts ih =>
    unfold findThreshold
    rw [if_neg]
    · exact ih
    · rintro ⟨h1, h2, -⟩
      omega

/-- A found threshold satisfies the loop's guard. -/
theorem findThreshold_guard {pct prev : Nat} {notified ts : List Nat} {t : Nat}
    (h : findThreshold pct prev notified ts = some t) :
    t ≤ pct ∧ prev < t ∧ t ∉ notified := by
  induction ts with
  | nil => exact absurd h (by simp [findThreshold])
  | cons u us ih =>
    unfold findThreshold at h
    by_cases hc : u ≤ pct ∧ prev < u ∧ u ∉ notified
    · rw [if_pos hc] at h
      cases h
      exact hc
    · rw [if_neg hc] at h
      exact ih h

/-- A found threshold is the first configured one satisfying the guard. -/
theorem findThreshold_first {pct prev : Nat} {notified ts : List Nat} {t : Nat}
    (h : findThreshold pct prev notified ts = some t) :
    ∃ pre post, ts = pre ++ t :: post ∧
      ∀ u ∈ pre, ¬(u ≤ pct ∧ prev < u ∧ u ∉ notified) := by
  induction ts with
  | nil => exact absurd h (by simp [findThreshold])
  | cons u us ih =>
    unfold findThreshold at h
    by_cases hc : u ≤ pct ∧ prev < u ∧ u ∉ notified
    · rw [if_pos hc] at h
      cases h
      exact ⟨[], us, rfl, by simp⟩
    · rw [if_neg hc] at h
      obtain ⟨pre, post, heq, hpre⟩ := ih h
      refine ⟨u :: pre, post, by rw [heq]; rfl, ?_⟩
      intro v hv
      rcases List.mem_cons.mp hv with rfl | hv
      · exact hc
      · exact hpre v hv

/-- After any `processTaskCompletion` call, `previousCompletionPercentage`
equals the percentage of the processed task list. -/
theorem step_prev (st : UnlockState) (ts : List Task) :
    ((processTaskCompletion st ts).2).previousCompletionPercentage =
      (evaluateUnlockCondition ts).completionPercentage := by
  unfold processTaskCompletion checkUnlockThreshold
  by_cases hcu : (evaluateUnlockCondition ts).canUnlock = true
  · simp [hcu]
  · simp only [Bool.not_eq_true] at hcu
    cases hf : findThreshold (evaluateUnlockCondition ts).completionPercentage
        st.previousCompletionPercentage st.notifiedThresholds st.unlockThresholds with
    | some t => simp [hcu, hf]
    | none =>
      by_cases hne : (evaluateUnlockCondition ts).completionPercentage ≠
          st.previousCompletionPercentage
      · simp [hcu, hf, hne]
      · rw [not_ne_iff] at hne
        rw [hne] at hf
        simp [hcu, hf, hne]

/-- `processTaskCompletion` never changes the configured thresholds. -/
theorem step_thresholds (st : UnlockState) (ts : List Task) :
    ((processTaskCompletion st ts).2).unlockThresholds = st.unlockThresholds := by
  unfold processTaskCompletion checkUnlockThreshold
  by_cases hcu : (evaluateUnlockCondition ts).canUnlock = true
  · simp [hcu]
  · simp only [Bool.not_eq_true] at hcu
    cases hf : findThreshold (evaluateUnlockCondition ts).completionPercentage
        st.previousCompletionPercentage st.notifiedThresholds st.unlockThresholds with
    | some t => simp [hcu, hf]
    | none =>
      by_cases hne : (evaluateUnlockCondition ts).completionPercentage ≠
          st.previousCompletionPercentage
      · simp [hcu, hf, hne]
      · rw [not_ne_iff] at hne
        rw [hne] at hf
        simp [hcu, hf, hne]

/-- After a `processTaskCompletion` call, `notifiedThresholds` is the old set
plus the fired threshold, if any. -/
theorem step_notified (st : UnlockState) (ts : List Task) :
    ((processTaskCompletion st ts).2).notifiedThresholds =
      match firedThreshold st ts with
      | some t => st.notifiedThresholds ++ [t]
      | none => st.notifiedThresholds := by
  unfold processTaskCompletion checkUnlockThreshold firedThreshold
  by_cases hcu : (evaluateUnlockCondition ts).canUnlock = true
  · simp [hcu]
  · simp only [Bool.not_eq_true] at hcu
    cases hf : findThreshold (evaluateUnlockCondition ts).completionPercentage
        st.previousCompletionPercentage st.notifiedThresholds st.unlockThresholds with
    | some t => simp [hcu, hf]
    | none =>
      by_cases hne : (evaluateUnlockCondition ts).completionPercentage ≠
          st.previousCompletionPercentage
      · simp [hcu, hf, hne]
      · rw [not_ne_iff] at hne
        rw [hne] at hf
        simp [hcu, hf, hne]

/-- A fired threshold lands in the updated `notifiedThresholds`. -/
theorem fired_mem_step (st : UnlockState) (ts : List Task) (t : Nat)
    (hf : firedThreshold st ts = some t) :
    t ∈ ((processTaskCompletion st ts).2).notifiedThresholds := by
  rw [step_notified, hf]
  simp

/-- `notifiedThresholds` only grows across a call. -/
theorem notified_mono (st : UnlockState) (ts : List Task) (t : Nat)
    (hmem : t ∈ st.notifiedThresholds) :
    t ∈ ((processTaskCompletion st ts).2).notifiedThresholds := by
  rw [step_notified]
  cases firedThreshold st ts with
  | some u => simp [hmem]
  | none => exact hmem

/-- An already-notified threshold can never fire. -/
theorem fired_not_notified (st : UnlockState) (ts : List Task) (t : Nat)
    (hmem : t ∈ st.notifiedThresholds) : firedThreshold st ts ≠ some t := by
  unfold firedThreshold
  by_cases hcu : (evaluateUnlockCondition ts).canUnlock = true
  · simp [hcu]
  · simp only [Bool.not_eq_true] at hcu
    simp only [hcu, Bool.false_eq_true, if_false]
    intro h
    exact (findThreshold_guard h).2.2 hmem

/-- Over any run, an already-notified threshold never fires. -/
theorem runFires_count_zero (t : Nat) (tss : List (List Task)) :
    ∀ st : UnlockState, t ∈ st.notifiedThresholds →
      (runFires st tss).count (some t) = 0 := by
  induction tss with
  | nil => intro st _; rfl
  | cons ts tss ih =>
    intro st hmem
    unfold runFires
    rw [List.count_cons]
    have h1 : (firedThreshold st ts == some t) = false := by
      rw [beq_eq_false_iff_ne]
      exact fired_not_notified st ts t hmem
    rw [h1, ih (processTaskCompletion st ts).2 (notified_mono st ts t hmem)]
    simp

/-- Over any run, each threshold fires at most once. -/
theorem runFires_count_le_one (t : Nat) (tss : List (List Task)) :
    ∀ st : UnlockState, (runFires st tss).count (some t) ≤ 1 := by
  induction tss with
  | nil => intro st; simp [runFires]
  | cons ts tss ih =>
    intro st
    unfold runFires
    rw [List.count_cons]
    by_cases hf : firedThreshold st ts = some t
    · rw [runFires_count_zero t tss (processTaskCompletion st ts).2
        (fired_mem_step st ts t hf)]
      simp [hf]
    · have h1 : (firedThreshold st ts == some t) = false := by
        rw [beq_eq_false_iff_ne]
        exact hf
      rw [h1]
      simpa using ih (processTaskCompletion st ts).2

/-- When a threshold fires, the call produces exactly the corresponding
`partial_unlock` notification. -/
theorem fired_produces_notification (st : UnlockState) (ts : List Task) (t : Nat)
    (hf : firedThreshold st ts = some t) :
    (processTaskCompletion st ts).1 =
      some { type := "partial_unlock"
             message := toString t ++ "% complete! Keep going!"
             completedTasks := (evaluateUnlockCondition ts).completedTasks
             totalTasks := (evaluateUnlockCondition ts).totalTasks
             xpEarned := none } := by
  unfold firedThreshold at hf
  by_cases hcu : (evaluateUnlockCondition ts).canUnlock = true
  · rw [if_pos hcu] at hf
    exact absurd hf (by simp)
  · rw [if_neg hcu] at hf
    simp only [Bool.not_eq_true] at hcu
    unfold processTaskCompletion checkUnlockThreshold
    simp [hcu, hf]

/-- Conversely, a `partial_unlock` notification comes from a fired
threshold. -/
theorem notification_from_fired (st : UnlockState) (ts : List Task)
    (n : UnlockNotification) (h : (processTaskCompletion st ts).1 = some n)
    (htype : n.type = "partial_unlock") :
    ∃ t, firedThreshold st ts = some t := by
  unfold processTaskCompletion checkUnlockThreshold at h
  unfold firedThreshold
  by_cases hcu : (evaluateUnlockCondition ts).canUnlock = true
  · simp only [hcu, if_true] at h
    cases Option.some.inj h
    simp at htype
  · simp only [Bool.not_eq_true] at hcu
    simp only [hcu, Bool.false_eq_true, if_false] at h ⊢
    cases hf : findThreshold (evaluateUnlockCondition ts).completionPercentage
        st.previousCompletionPercentage st.notifiedThresholds st.unlockThresholds with
    | some t => exact ⟨t, rfl⟩
    | none =>
      simp only [hf] at h
      by_cases hne : (evaluateUnlockCondition ts).completionPercentage ≠
          st.previousCompletionPercentage
      · rw [if_pos hne] at h
        cases Option.some.inj h
        simp at htype
      · rw [if_neg hne] at h
        exact absurd h (by simp)

/-- A call on a state whose tracking already reflects the task list, with the
full-unlock condition false, returns nothing and leaves the state unchanged. -/
theorem processTaskCompletion_stable (st : UnlockState) (ts : List Task)
    (hprev : st.previousCompletionPercentage =
      (evaluateUnlockCondition ts).completionPercentage)
    (hcu : (evaluateUnlockCondition ts).canUnlock = false) :
    processTaskCompletion st ts = (none, st) := by
  unfold processTaskCompletion checkUnlockThreshold
  simp [hcu, hprev, findThreshold_self]

/-- Witness inputs: a single completed medium task. -/
def oneDoneList : List Task :=
  [{ status := TaskStatus.completed, difficulty := TaskDifficulty.medium }]

/-- Witness inputs: two pending tasks (0 % complete). -/
def twoPendingList : List Task :=
  [{ status := TaskStatus.pending, difficulty := TaskDifficulty.medium },
   { status := TaskStatus.pending, difficulty := TaskDifficulty.medium }]

/-- Witness inputs: one of two tasks completed (50 % complete). -/
def oneOfTwoList : List Task :=
  [{ status := TaskStatus.completed, difficulty := TaskDifficulty.medium },
   { status := TaskStatus.pending, difficulty := TaskDifficulty.medium }]

/-- Claim C1 counterexample: with a task list in the full-completion state
(one completed task), a first `processTaskCompletion` call returns a
notification and an immediately following second call with the same list
again returns a `full_unlock` notification instead of nothing. -/
theorem repeated_full_unlock :
    (processTaskCompletion initialUnlockState oneDoneList).1.isSome = true ∧
    ((processTaskCompletion (processTaskCompletion initialUnlockState oneDoneList).2
        oneDoneList).1.map UnlockNotification.type) = some "full_unlock" := by
  decide

/-- Claim C1 (amended): an immediately repeated `processTaskCompletion` call
with an unchanged task list returns nothing and leaves the state unchanged
whenever the list is not in the full-completion state; in the
full-completion state (`completedTasks = totalTasks > 0`) every call,
including the repeated one, re-delivers a `full_unlock` notification. -/
theorem second_call_no_notification :
    ∀ (st : UnlockState) (ts : List Task),
      ((evaluateUnlockCondition ts).canUnlock = false →
        processTaskCompletion (processTaskCompletion st ts).2 ts =
          (none, (processTaskCompletion st ts).2)) ∧
      ((evaluateUnlockCondition ts).canUnlock = true →
        ((processTaskCompletion (processTaskCompletion st ts).2 ts).1.map
          UnlockNotification.type) = some "full_unlock") := by
  intro st ts
  constructor
  · intro hcu
    exact processTaskCompletion_stable _ ts (step_prev st ts) hcu
  · intro hcu
    unfold processTaskCompletion
    simp [hcu]

/-- Claim C1 (amended) witness: concrete instances of both branches. -/
theorem second_call_no_notification_witness :
    (processTaskCompletion (processTaskCompletion initialUnlockState oneOfTwoList).2
        oneOfTwoList =
      (none, (processTaskCompletion initialUnlockState oneOfTwoList).2)) ∧
    ((processTaskCompletion (processTaskCompletion initialUnlockState oneDoneList).2
        oneDoneList).1.map UnlockNotification.type) = some "full_unlock" :=
  ⟨(second_call_no_notification initialUnlockState oneOfTwoList).1 (by decide),
   (second_call_no_notification initialUnlockState oneDoneList).2 (by decide)⟩

/-- Claim C2: between two `resetTracking` calls, each configured threshold
fires at most one `partial_unlock` notification (over any sequence of
`processTaskCompletion` calls); a threshold `t` fires only when the
completion percentage has reached `t`, the previous percentage was below `t`
and `t` has not been notified yet; the fired threshold is the first
newly-crossed one in configured (ascending by default) order, so at most one
threshold fires per call; a fired threshold is exactly what produces a
`partial_unlock` notification; and `resetTracking` restores
`previousCompletionPercentage = 0` and empties `notifiedThresholds`, letting
every threshold fire again in the next epoch. -/
theorem threshold_fires_once_per_epoch :
    (∀ (st : UnlockState) (tss : List (List Task)) (t : Nat),
      (runFires st tss).count (some t) ≤ 1) ∧
    (∀ (st : UnlockState) (ts : List Task) (t : Nat),
      firedThreshold st ts = some t →
        t ≤ (evaluateUnlockCondition ts).completionPercentage ∧
        st.previousCompletionPercentage < t ∧
        t ∉ st.notifiedThresholds) ∧
    (∀ (st : UnlockState) (ts : List Task) (t : Nat),
      firedThreshold st ts = some t →
        ∃ pre post, st.unlockThresholds = pre ++ t :: post ∧
          ∀ u ∈ pre, ¬(u ≤ (evaluateUnlockCondition ts).completionPercentage ∧
            st.previousCompletionPercentage < u ∧ u ∉ st.notifiedThresholds)) ∧
    (∀ (st : UnlockState) (ts : List Task) (t : Nat),
      firedThreshold st ts = some t →
        (processTaskCompletion st ts).1 =
          some { type := "partial_unlock"
                 message := toString t ++ "% complete! Keep going!"
                 completedTasks := (evaluateUnlockCondition ts).completedTasks
                 totalTasks := (evaluateUnlockCondition ts).totalTasks
                 xpEarned := none }) ∧
    (∀ (st : UnlockState) (ts : List Task) (n : UnlockNotification),
      (processTaskCompletion st ts).1 = some n → n.type = "partial_unlock" →
        ∃ t, firedThreshold st ts = some t) ∧
    (∀ st : UnlockState, (resetTracking st).previousCompletionPercentage = 0 ∧
      (resetTracking st).notifiedThresholds = []) := by
  refine ⟨fun st tss t => runFires_count_le_one t tss st, ?_, ?_, ?_, ?_, ?_⟩
  · intro st ts t hf
    unfold firedThreshold at hf
    by_cases hcu : (evaluateUnlockCondition ts).canUnlock = true
    · simp [hcu] at hf
    · simp only [Bool.not_eq_true] at hcu
      simp only [hcu, Bool.false_eq_true, if_false] at hf
      exact findThreshold_guard hf
  · intro st ts t hf
    unfold firedThreshold at hf
    by_cases hcu : (evaluateUnlockCondition ts).canUnlock = true
    · simp [hcu] at hf
    · simp only [Bool.not_eq_true] at hcu
      simp only [hcu, Bool.false_eq_true, if_false] at hf
      exact findThreshold_first hf
  · exact fun st ts t hf => fired_produces_notification st ts t hf
  · exact fun st ts n h htype => notification_from_fired st ts n h htype
  · intro st
    exact ⟨rfl, rfl⟩

/-- Claim C2 witness: on the 2-task list with one task completed, starting
from the default state, the 50 % threshold fires with its guard satisfied,
producing the `partial_unlock` notification; counts and the reset facts at
concrete inputs. -/
theorem threshold_fires_once_per_epoch_witness :
    ((runFires initialUnlockState [oneOfTwoList, oneOfTwoList]).count (some 50) ≤ 1) ∧
    (50 ≤ (evaluateUnlockCondition oneOfTwoList).completionPercentage ∧
      initialUnlockState.previousCompletionPercentage < 50 ∧
      50 ∉ initialUnlockState.notifiedThresholds) ∧
    (∃ pre post, initialUnlockState.unlockThresholds = pre ++ 50 :: post ∧
      ∀ u ∈ pre, ¬(u ≤ (evaluateUnlockCondition oneOfTwoList).completionPercentage ∧
        initialUnlockState.previousCompletionPercentage < u ∧
        u ∉ initialUnlockState.notifiedThresholds)) ∧
    ((processTaskCompletion initialUnlockState oneOfTwoList).1 =
      some { type := "partial_unlock"
             message := toString 50 ++ "% complete! Keep going!"
             completedTasks := (evaluateUnlockCondition oneOfTwoList).completedTasks
             totalTasks := (evaluateUnlockCondition oneOfTwoList).totalTasks
             xpEarned := none }) ∧
    (∃ t, firedThreshold initialUnlockState oneOfTwoList = some t) ∧
    ((resetTracking initialUnlockState).previousCompletionPercentage = 0 ∧
      (resetTracking initialUnlockState).notifiedThresholds = []) :=
  ⟨threshold_fires_once_per_epoch.1 initialUnlockState [oneOfTwoList, oneOfTwoList] 50,
   threshold_fires_once_per_epoch.2.1 initialUnlockState oneOfTwoList 50 (by decide),
   threshold_fires_once_per_epoch.2.2.1 initialUnlockState oneOfTwoList 50 (by decide),
   threshold_fires_once_per_epoch.2.2.2.1 initialUnlockState oneOfTwoList 50 (by decide),
   threshold_fires_once_per_epoch.2.2.2.2.1 initialUnlockState oneOfTwoList
     { type := "partial_unlock"
       message := toString 50 ++ "% complete! Keep going!"
       completedTasks := (evaluateUnlockCondition oneOfTwoList).completedTasks
       totalTasks := (evaluateUnlockCondition oneOfTwoList).totalTasks
       xpEarned := none } (by decide) (by decide),
   threshold_fires_once_per_epoch.2.2.2.2.2 initialUnlockState⟩

/-- Field unfolding: `totalTasks` is the number of tasks. -/
theorem evaluate_totalTasks (tasks : List Task) :
    (evaluateUnlockCondition tasks).totalTasks = tasks.length := rfl

/-- Field unfolding: `completedTasks` counts the tasks in `completed`
status. -/
theorem evaluate_completedTasks (tasks : List Task) :
    (evaluateUnlockCondition tasks).completedTasks =
      (tasks.filter fun t => t.status == TaskStatus.completed).length := rfl

/-- Field unfolding: `canUnlock` is `totalTasks > 0 ∧ completedTasks =
totalTasks`. -/
theorem evaluate_canUnlock (tasks : List Task) :
    (evaluateUnlockCondition tasks).canUnlock =
      (decide (0 < tasks.length) &&
        decide ((tasks.filter fun t => t.status == TaskStatus.completed).length =
          tasks.length)) := rfl

/-- When the full-unlock condition is false, no `full_unlock` notification is
produced. -/
theorem no_full_unlock_of_canUnlock_false (st : UnlockState) (ts : List Task)
    (hcu : (evaluateUnlockCondition ts).canUnlock = false) :
    ∀ n, (processTaskCompletion st ts).1 = some n → n.type ≠ "full_unlock" := by
  intro n h
  unfold processTaskCompletion checkUnlockThreshold at h
  simp only [hcu, Bool.false_eq_true, if_false] at h
  cases hf : findThreshold (evaluateUnlockCondition ts).completionPercentage
      st.previousCompletionPercentage st.notifiedThresholds st.unlockThresholds with
  | some t =>
    simp only [hf] at h
    cases Option.some.inj h
    simp
  | none =>
    simp only [hf] at h
    by_cases hne : (evaluateUnlockCondition ts).completionPercentage ≠
        st.previousCompletionPercentage
    · rw [if_pos hne] at h
      cases Option.some.inj h
      simp
    · rw [if_neg hne] at h
      exact absurd h (by simp)

/-- Witness inputs: one completed task of each difficulty. -/
def oneOfEachList : List Task :=
  [{ status := TaskStatus.completed, difficulty := TaskDifficulty.easy },
   { status := TaskStatus.completed, difficulty := TaskDifficulty.medium },
   { status := TaskStatus.completed, difficulty := TaskDifficulty.hard }]

/-- Claim C3: on a task list with `completedTasks = totalTasks > 0`,
`processTaskCompletion` returns a `full_unlock` notification whatever the
tracking state (priority over threshold checks), with `xpEarned` equal to
`calculateXPEarned`, which is the sum over tasks in `completed` status of the
per-difficulty rewards easy → 75, medium → 100, hard → 150; tasks not in
`completed` status contribute nothing to the sum. -/
theorem full_unlock_awards_xp :
    ∀ (tasks : List Task) (st : UnlockState),
      0 < (evaluateUnlockCondition tasks).totalTasks →
      (evaluateUnlockCondition tasks).completedTasks =
        (evaluateUnlockCondition tasks).totalTasks →
      ((processTaskCompletion st tasks).1.map UnlockNotification.type =
        some "full_unlock" ∧
       (processTaskCompletion st tasks).1.map UnlockNotification.xpEarned =
        some (some (calculateXPEarned tasks))) ∧
      calculateXPEarned tasks =
        ((tasks.filter fun t => t.status == TaskStatus.completed).map fun t =>
          match t.difficulty with
          | TaskDifficulty.easy => 75
          | TaskDifficulty.medium => 100
          | TaskDifficulty.hard => 150).sum := by
  intro tasks st htot hcomp
  rw [evaluate_totalTasks] at htot
  rw [evaluate_completedTasks, evaluate_totalTasks] at hcomp
  have hcu : (evaluateUnlockCondition tasks).canUnlock = true := by
    rw [evaluate_canUnlock]
    simp [htot, hcomp]
  constructor
  · unfold processTaskCompletion
    simp [hcu]
  · unfold calculateXPEarned
    congr 1

/-- Claim C3 witness: one completed task of each difficulty yields
`full_unlock` with 75 + 100 + 150 = 325 XP. -/
theorem full_unlock_awards_xp_witness :
    ((processTaskCompletion initialUnlockState oneOfEachList).1.map
        UnlockNotification.type = some "full_unlock" ∧
     (processTaskCompletion initialUnlockState oneOfEachList).1.map
        UnlockNotification.xpEarned = some (some (calculateXPEarned oneOfEachList))) ∧
    calculateXPEarned oneOfEachList =
      ((oneOfEachList.filter fun t => t.status == TaskStatus.completed).map fun t =>
        match t.difficulty with
        | TaskDifficulty.easy => 75
        | TaskDifficulty.medium => 100
        | TaskDifficulty.hard => 150).sum :=
  full_unlock_awards_xp oneOfEachList initialUnlockState (by decide) (by decide)

/-- Witness inputs: a single cancelled task. -/
def cancelledList : List Task :=
  [{ status := TaskStatus.cancelled, difficulty := TaskDifficulty.medium }]

/-- Witness state whose tracked percentage differs from 0 %, so that a
notification is produced on `cancelledList`. -/
def trackedFiftyState : UnlockState :=
  { initialUnlockState with previousCompletionPercentage := 50 }

/-- Claim C10: a `cancelled` task is counted in `totalTasks` but never in
`completedTasks`, so a task list containing a cancelled task has
`canUnlock = false`, `areAllTasksCompleted = false`, and
`processTaskCompletion` never returns a `full_unlock` notification on it —
cancelled tasks block the full unlock rather than being excluded from the
ratio. -/
theorem cancelled_blocks_full_unlock :
    ∀ (tasks : List Task) (st : UnlockState),
      (evaluateUnlockCondition tasks).totalTasks = tasks.length ∧
      (evaluateUnlockCondition tasks).completedTasks =
        (tasks.filter fun t => t.status == TaskStatus.completed).length ∧
      ((∃ t ∈ tasks, t.status = TaskStatus.cancelled) →
        (evaluateUnlockCondition tasks).canUnlock = false ∧
        areAllTasksCompleted tasks = false ∧
        ∀ n, (processTaskCompletion st tasks).1 = some n →
          n.type ≠ "full_unlock") := by
  intro tasks st
  refine ⟨rfl, rfl, ?_⟩
  rintro ⟨t, htmem, htc⟩
  have hlt : (tasks.filter fun u => u.status == TaskStatus.completed).length <
      tasks.length := by
    rw [List.length_filter_lt_length_iff_exists]
    exact ⟨t, htmem, by simp [htc]⟩
  have hcu : (evaluateUnlockCondition tasks).canUnlock = false := by
    rw [evaluate_canUnlock]
    simp [Nat.ne_of_lt hlt]
  refine ⟨hcu, ?_, no_full_unlock_of_canUnlock_false st tasks hcu⟩
  unfold areAllTasksCompleted
  rw [if_neg]
  · rw [List.all_eq_false]
    exact ⟨t, htmem, by simp [htc]⟩
  · rw [List.length_eq_zero]
    exact List.ne_nil_of_mem htmem

/-- Claim C10 witness: concrete instance on a one-element cancelled list,
including a produced (`progress_update`, not `full_unlock`) notification. -/
theorem cancelled_blocks_full_unlock_witness :
    (evaluateUnlockCondition cancelledList).canUnlock = false ∧
    areAllTasksCompleted cancelledList = false ∧
    ({ type := "progress_update"
       message := toString 0 ++ "/" ++ toString 1 ++ " tasks completed"
       completedTasks := 0
       totalTasks := 1
       xpEarned := none } : UnlockNotification).type ≠ "full_unlock" := by
  have hex : ∃ t ∈ cancelledList, t.status = TaskStatus.cancelled :=
    ⟨{ status := TaskStatus.cancelled, difficulty := TaskDifficulty.medium },
     by decide, rfl⟩
  refine ⟨((cancelled_blocks_full_unlock cancelledList initialUnlockState).2.2 hex).1,
    ((cancelled_blocks_full_unlock cancelledList initialUnlockState).2.2 hex).2.1,
    ((cancelled_blocks_full_unlock cancelledList trackedFiftyState).2.2 hex).2.2
      _ (by decide)⟩

/-! Process monitor claims. -/

/-- Witness oracle: the graceful request is denied, the forced one
succeeds. -/
def escalationOracle : KillCmd → ExecOutcome
  | KillCmd.graceful _ => ExecOutcome.failed "Access denied"
  | KillCmd.forced _ => ExecOutcome.ok

/-- Witness oracle: every request succeeds. -/
def gracefulOkOracle : KillCmd → ExecOutcome := fun _ => ExecOutcome.ok

/-- Witness oracle: every request fails because the target process is
gone. -/
def notFoundOracle : KillCmd → ExecOutcome :=
  fun _ => ExecOutcome.failed "Process not found"

/-- Claim C4: with `gracefulTerminationFirst = true`, a failing graceful
request is followed by exactly one forced request, and the returned result
reflects only the forced attempt's outcome — it equals the result of a
forced-only run, and succeeds iff the forced request succeeded.  A
succeeding graceful request ends the call successfully with no forced
request.  With `gracefulTerminationFirst = false`, only the forced request
is issued. -/
theorem termination_escalation :
    ∀ (pid : Nat) (name : String) (oracle : KillCmd → ExecOutcome),
      (∀ msg, oracle (KillCmd.graceful pid) = ExecOutcome.failed msg →
        terminateProcess true oracle pid name =
          ((terminateProcess false oracle pid name).1,
           [KillCmd.graceful pid, KillCmd.forced pid]) ∧
        ((terminateProcess true oracle pid name).1.success = true ↔
          oracle (KillCmd.forced pid) = ExecOutcome.ok)) ∧
      (oracle (KillCmd.graceful pid) = ExecOutcome.ok →
        terminateProcess true oracle pid name =
          ({ success := true, pid := pid, processName := name, error := none },
           [KillCmd.graceful pid])) ∧
      (terminateProcess false oracle pid name).2 = [KillCmd.forced pid] := by
  intro pid name oracle
  refine ⟨?_, ?_, ?_⟩
  · intro msg hg
    cases hf : oracle (KillCmd.forced pid) with
    | ok => constructor <;> simp [terminateProcess, hg, hf]
    | failed m => constructor <;> simp [terminateProcess, hg, hf]
  · intro hg
    simp [terminateProcess, hg]
  · cases hf : oracle (KillCmd.forced pid) with
    | ok => simp [terminateProcess, hf]
    | failed m => simp [terminateProcess, hf]

/-- Claim C4 witness: the escalation at pid 1234 under a deny-then-succeed
oracle, the graceful-success case under an all-ok oracle, and the
forced-only trace. -/
theorem termination_escalation_witness :
    (terminateProcess true escalationOracle 1234 "steam" =
      ((terminateProcess false escalationOracle 1234 "steam").1,
       [KillCmd.graceful 1234, KillCmd.forced 1234]) ∧
     ((terminateProcess true escalationOracle 1234 "steam").1.success = true ↔
       escalationOracle (KillCmd.forced 1234) = ExecOutcome.ok)) ∧
    (terminateProcess true gracefulOkOracle 1234 "steam" =
      ({ success := true, pid := 1234, processName := "steam", error := none },
       [KillCmd.graceful 1234])) ∧
    (terminateProcess false escalationOracle 1234 "steam").2 =
      [KillCmd.forced 1234] :=
  ⟨(termination_escalation 1234 "steam" escalationOracle).1 "Access denied" rfl,
   (termination_escalation 1234 "steam" gracefulOkOracle).2.1 rfl,
   (termination_escalation 1234 "steam" escalationOracle).2.2⟩

/-- Claim C5 counterexample: against a process that no longer exists — both
the graceful and the forced request fail — `terminateProcess` returns
`success = false`, not `success = true`.  This matches the repository's own
test `should return failure result on complete termination failure`, which
feeds the error `Process not found` and expects failure. -/
theorem vanished_process_not_success :
    (terminateProcess true notFoundOracle 1234 "steam").1.success = false := by
  decide

/-- Claim C5 (amended): a termination attempt against a process that no
longer exists — both requests fail — yields `success = false`, carrying the
forced attempt's error message; the code does not special-case the
"already gone" situation as a success. -/
theorem vanished_process_failure_result :
    ∀ (pid : Nat) (name : String) (oracle : KillCmd → ExecOutcome) (m1 m2 : String),
      oracle (KillCmd.graceful pid) = ExecOutcome.failed m1 →
      oracle (KillCmd.forced pid) = ExecOutcome.failed m2 →
      terminateProcess true oracle pid name =
        ({ success := false, pid := pid, processName := name, error := some m2 },
         [KillCmd.graceful pid, KillCmd.forced pid]) := by
  intro pid name oracle m1 m2 hg hf
  simp [terminateProcess, hg, hf]

/-- Claim C5 (amended) witness: the concrete already-gone oracle at pid
1234. -/
theorem vanished_process_failure_result_witness :
    terminateProcess true notFoundOracle 1234 "steam" =
      ({ success := false, pid := 1234, processName := "steam",
         error := some "Process not found" },
       [KillCmd.graceful 1234, KillCmd.forced 1234]) :=
  vanished_process_failure_result 1234 "steam" notFoundOracle
    "Process not found" "Process not found" rfl rfl

/-- Witness input: a scan result holding one Steam process. -/
def steamProcess : ProcessInfo :=
  { pid := 1, name := "steam", executableName := "steam.exe" }

/-- Claim C6: given scanner-normalized (lowercase) executable names, the
matching step returns exactly the running processes whose executable name
equals, case-insensitively, the `executableName` of at least one restriction
with `isEnabled = true`; each running occurrence appears exactly once in the
result even when several enabled restrictions match it (the count equals its
count in `running`); the result is in scan order (a sublist of `running`);
and the function is deterministic in its two inputs. -/
theorem matching_exact_case_insensitive :
    ∀ (running : List ProcessInfo) (apps : List RestrictedApp),
      (∀ q ∈ running, lowerStr q.executableName = q.executableName) →
      (∀ p : ProcessInfo,
        (detectRestrictedProcesses running apps).count p =
          if (apps.any fun a => a.isEnabled &&
              (lowerStr p.executableName == lowerStr a.executableName)) = true
          then running.count p else 0) ∧
      List.Sublist (detectRestrictedProcesses running apps) running ∧
      detectRestrictedProcesses running apps =
        detectRestrictedProcesses running apps := by
  intro running apps hnorm
  refine ⟨?_, List.filter_sublist running, rfl⟩
  intro p
  by_cases hp : p ∈ running
  · have hpl : lowerStr p.executableName = p.executableName := hnorm p hp
    have hpred : ((apps.filter fun a => a.isEnabled).any fun a =>
        p.executableName == lowerStr a.executableName) =
        (apps.any fun a => a.isEnabled &&
          (lowerStr p.executableName == lowerStr a.executableName)) := by
      rw [List.any_filter, hpl]
    unfold detectRestrictedProcesses
    by_cases hm : (apps.any fun a => a.isEnabled &&
        (lowerStr p.executableName == lowerStr a.executableName)) = true
    · rw [if_pos hm]
      exact List.count_filter (by rw [hpred]; exact hm)
    · rw [if_neg hm]
      simp only [Bool.not_eq_true] at hm
      refine List.count_eq_zero.mpr fun hmem => ?_
      have := (List.mem_filter.mp hmem).2
      rw [hpred, hm] at this
      exact Bool.noConfusion this
  · have h1 : (detectRestrictedProcesses running apps).count p = 0 :=
      List.count_eq_zero.mpr fun hmem => hp (List.mem_of_mem_filter hmem)
    have h2 : running.count p = 0 := List.count_eq_zero.mpr hp
    rw [h1, h2]
    split <;> rfl

/-- Claim C6 witness: one running Steam process against the default
restriction list. -/
theorem matching_exact_case_insensitive_witness :
    ((detectRestrictedProcesses [steamProcess] defaultRestrictedApps).count steamProcess =
      if (defaultRestrictedApps.any fun a => a.isEnabled &&
          (lowerStr steamProcess.executableName == lowerStr a.executableName)) = true
      then [steamProcess].count steamProcess else 0) ∧
    List.Sublist (detectRestrictedProcesses [steamProcess] defaultRestrictedApps)
      [steamProcess] ∧
    detectRestrictedProcesses [steamProcess] defaultRestrictedApps =
      detectRestrictedProcesses [steamProcess] defaultRestrictedApps :=
  ⟨(matching_exact_case_insensitive [steamProcess] defaultRestrictedApps
      (by decide)).1 steamProcess,
   (matching_exact_case_insensitive [steamProcess] defaultRestrictedApps
      (by decide)).2.1,
   (matching_exact_case_insensitive [steamProcess] defaultRestrictedApps
      (by decide)).2.2⟩

/-! Focus-mode store lemmas. -/

/-- Unfolding of `stopFocusMode` on an active session with a non-falsy start
timestamp. -/
theorem stopFocusMode_active (now : Int) (wasNatural : Bool) (tc : Int)
    (st : FocusModeState) (s : Int) (hst : st.startedAt = some s) (hs : s ≠ 0) :
    stopFocusMode now wasNatural tc st =
      { st with
        isActive := false
        startedAt := none
        currentSessionTime := 0
        totalFocusTime := st.totalFocusTime + (now - s)
        sessions := st.sessions ++
          [{ id := genSessionId now, startedAt := s, endedAt := now,
             duration := now - s, tasksCompleted := tc,
             wasUnlockedNaturally := wasNatural }] } := by
  simp only [stopFocusMode, hst]
  rw [if_neg hs]

/-- `stopFocusMode` is a no-op without a session start timestamp. -/
theorem stopFocusMode_inactive (now : Int) (wasNatural : Bool) (tc : Int)
    (st : FocusModeState) (hst : st.startedAt = none) :
    stopFocusMode now wasNatural tc st = st := by
  simp only [stopFocusMode, hst]

/-- `stopFocusMode` only ever appends to the session history. -/
theorem stopFocusMode_sessions (now : Int) (wasNatural : Bool) (tc : Int)
    (st : FocusModeState) :
    ∃ tail, (stopFocusMode now wasNatural tc st).sessions = st.sessions ++ tail := by
  cases hst : st.startedAt with
  | none => exact ⟨[], by rw [stopFocusMode_inactive now wasNatural tc st hst]; simp⟩
  | some s =>
    by_cases hs : s = 0
    · refine ⟨[], ?_⟩
      simp only [stopFocusMode, hst]
      rw [if_pos hs]
      simp
    · rw [stopFocusMode_active now wasNatural tc st s hst hs]
      exact ⟨_, rfl⟩

/-- `canEmergencyUnlock` requires an active session. -/
theorem canEmergencyUnlock_active (now : Int) (st : FocusModeState)
    (h : canEmergencyUnlock now st = true) : st.isActive = true := by
  unfold canEmergencyUnlock at h
  by_cases hact : st.isActive = true
  · exact hact
  · have hact' : st.isActive = false := by simpa using hact
    simp [hact'] at h

/-- The store invariant holds initially. -/
theorem storeInv_initial : StoreInv initialFocusModeState := by
  refine ⟨fun _ => ⟨rfl, rfl⟩, ?_, ?_, ?_⟩
  · intro h
    simp [initialFocusModeState] at h
  · intro s hs
    simp [initialFocusModeState] at hs
  · intro l hl
    simp [initialFocusModeState] at hl

/-- The store invariant is preserved by every valid action invocation. -/
theorem storeInv_apply (op : FocusOp) (st : FocusModeState)
    (h : StoreInv st) (hv : op.validTime) : StoreInv (op.apply st) := by
  obtain ⟨h1, h2, h3, h4⟩ := h
  cases op with
  | startOp now =>
    simp only [FocusOp.apply, startFocusMode]
    refine ⟨?_, ?_, ?_, h4⟩
    · intro hf
      simp at hf
    · intro _
      simp
    · intro s hs
      simp only [Option.some.injEq] at hs
      rw [← hs]
      exact hv
  | stopOp now wn tc =>
    simp only [FocusOp.apply]
    cases hst : st.startedAt with
    | none =>
      rw [stopFocusMode_inactive now wn tc st hst]
      exact ⟨h1, h2, h3, h4⟩
    | some s =>
      by_cases hs : s = 0
      · simp only [stopFocusMode, hst]
        rw [if_pos hs]
        exact ⟨h1, h2, h3, h4⟩
      · rw [stopFocusMode_active now wn tc st s hst hs]
        refine ⟨fun _ => ⟨rfl, rfl⟩, ?_, ?_, h4⟩
        · intro hf
          simp at hf
        · intro u hu
          simp at hu
  | tickOp now =>
    simp only [FocusOp.apply]
    by_cases hact : st.isActive = true
    · cases hst : st.startedAt with
      | none =>
        simp only [updateSessionTime, hst, hact, Bool.not_true, Bool.false_eq_true,
          if_false]
        exact ⟨h1, h2, h3, h4⟩
      | some s =>
        by_cases hs : s = 0
        · simp only [updateSessionTime, hst, hact, Bool.not_true, Bool.false_eq_true,
            if_false, if_pos hs]
          exact ⟨h1, h2, h3, h4⟩
        · simp only [updateSessionTime, hst, hact, Bool.not_true, Bool.false_eq_true,
            if_false, if_neg hs]
          refine ⟨fun hf => absurd hf (by simp), fun _ => by simp, ?_, h4⟩
          intro u hu
          simp only [Option.some.injEq] at hu
          rw [← hu]
          exact h3 s hst
    · have hact' : st.isActive = false := by simpa using hact
      simp only [updateSessionTime, hact', Bool.not_false, if_true]
      exact ⟨h1, h2, h3, h4⟩
  | emergencyOp now =>
    simp only [FocusOp.apply]
    unfold emergencyUnlock
    by_cases hcan : canEmergencyUnlock now st = true
    · rw [if_pos hcan]
      have hact := canEmergencyUnlock_active now st hcan
      obtain ⟨s, hst⟩ := Option.ne_none_iff_exists'.mp (h2 hact)
      have hs : s ≠ 0 := by
        have := h3 s hst
        omega
      simp only
      rw [stopFocusMode_active now false 0 st s hst hs]
      refine ⟨fun _ => ⟨rfl, rfl⟩, ?_, ?_, ?_⟩
      · intro hf
        simp at hf
      · intro u hu
        simp at hu
      · intro l hl
        simp only [Option.some.injEq] at hl
        rw [← hl]
        exact hv
    · rw [if_neg hcan]
      exact ⟨h1, h2, h3, h4⟩
  | resetOp =>
    simp only [FocusOp.apply, resetFocusMode]
    refine ⟨fun _ => ⟨rfl, rfl⟩, ?_, ?_, ?_⟩
    · intro hf
      simp at hf
    · intro u hu
      simp at hu
    · intro l hl
      simp at hl
  | addAppOp id name executableName isEnabled => exact ⟨h1, h2, h3, h4⟩
  | removeAppOp id => exact ⟨h1, h2, h3, h4⟩
  | toggleAppOp id => exact ⟨h1, h2, h3, h4⟩
  | updateAppOp id patch => exact ⟨h1, h2, h3, h4⟩

/-- Every reachable store state satisfies the invariant. -/
theorem reachable_storeInv (st : FocusModeState) (h : Reachable st) : StoreInv st := by
  induction h with
  | init => exact storeInv_initial
  | step op st _ hv ih => exact storeInv_apply op st ih hv

/-- Sessions are untouched by `updateSessionTime`. -/
theorem updateSessionTime_sessions (now : Int) (st : FocusModeState) :
    (updateSessionTime now st).sessions = st.sessions := by
  unfold updateSessionTime
  split
  · rfl
  · split
    · rfl
    · split
      · rfl
      · rfl

/-- A failing `canEmergencyUnlock` check makes `emergencyUnlock` return
false. -/
theorem emergencyUnlock_fst_false (now : Int) (st : FocusModeState)
    (h : canEmergencyUnlock now st = false) : (emergencyUnlock now st).1 = false := by
  unfold emergencyUnlock
  rw [if_neg (by rw [h]; decide)]

/-- Claim C7: in every store state satisfying the reachable-state invariant,
`canEmergencyUnlock` is false exactly when the session is inactive or a
prior emergency unlock is recorded less than `emergencyUnlockCooldown` ms
ago; when it is false, `emergencyUnlock` returns false with no state change;
otherwise `emergencyUnlock` stops the session with
`wasUnlockedNaturally = false` and `tasksCompleted = 0`, records
`lastEmergencyUnlock = now`, and returns true — after which any second
`emergencyUnlock` call (in particular one within the 30-minute cooldown,
1 800 000 ms initially) returns false. -/
theorem emergency_unlock_cooldown :
    ∀ (now : Int) (st : FocusModeState), StoreInv st →
      ((canEmergencyUnlock now st = false ↔
          st.isActive = false ∨ ∃ l, st.lastEmergencyUnlock = some l ∧
            now - l < st.emergencyUnlockCooldown) ∧
       (canEmergencyUnlock now st = false → emergencyUnlock now st = (false, st)) ∧
       (canEmergencyUnlock now st = true →
        ∃ s, st.startedAt = some s ∧
          emergencyUnlock now st =
            (true,
             { st with
               isActive := false
               startedAt := none
               currentSessionTime := 0
               totalFocusTime := st.totalFocusTime + (now - s)
               sessions := st.sessions ++
                 [{ id := genSessionId now, startedAt := s, endedAt := now,
                    duration := now - s, tasksCompleted := 0,
                    wasUnlockedNaturally := false }]
               lastEmergencyUnlock := some now }) ∧
          ∀ now2, (emergencyUnlock now2 (emergencyUnlock now st).2).1 = false)) ∧
      initialFocusModeState.emergencyUnlockCooldown = 1800000 := by
  intro now st hinv
  obtain ⟨h1, h2, h3, h4⟩ := hinv
  refine ⟨⟨?_, ?_, ?_⟩, rfl⟩
  · by_cases hact : st.isActive = true
    · cases hl : st.lastEmergencyUnlock with
      | none => simp [canEmergencyUnlock, hact, hl]
      | some l =>
        have hl0 : l ≠ 0 := by
          have := h4 l hl
          omega
        simp [canEmergencyUnlock, hact, hl, hl0, not_le]
    · have hact' : st.isActive = false := by simpa using hact
      simp only [canEmergencyUnlock, hact', Bool.not_false, if_true]
      simp [hact']
  · intro hcan
    unfold emergencyUnlock
    rw [if_neg (by rw [hcan]; decide)]
  · intro hcan
    have hact := canEmergencyUnlock_active now st hcan
    obtain ⟨s, hst⟩ := Option.ne_none_iff_exists'.mp (h2 hact)
    have hs : s ≠ 0 := by
      have := h3 s hst
      omega
    refine ⟨s, hst, ?_, ?_⟩
    · unfold emergencyUnlock
      rw [if_pos hcan, stopFocusMode_active now false 0 st s hst hs]
    · intro now2
      have hinactive : (emergencyUnlock now st).2.isActive = false := by
        unfold emergencyUnlock
        rw [if_pos hcan, stopFocusMode_active now false 0 st s hst hs]
      have hcan2 : canEmergencyUnlock now2 (emergencyUnlock now st).2 = false := by
        unfold canEmergencyUnlock
        rw [if_pos (by rw [hinactive]; decide)]
      exact emergencyUnlock_fst_false now2 _ hcan2

/-- Witness state: an active session started at timestamp 1000, otherwise the
initial store state. -/
def activeState : FocusModeState :=
  { initialFocusModeState with isActive := true, startedAt := some 1000 }

/-- Claim C7 witness: concrete behaviour at the initial (inactive) state and
the active witness state. -/
theorem emergency_unlock_cooldown_witness :
    ((canEmergencyUnlock 5000 initialFocusModeState = false ↔
        initialFocusModeState.isActive = false ∨
        ∃ l, initialFocusModeState.lastEmergencyUnlock = some l ∧
          5000 - l < initialFocusModeState.emergencyUnlockCooldown) ∧
      emergencyUnlock 5000 initialFocusModeState = (false, initialFocusModeState)) ∧
    (∃ s, activeState.startedAt = some s ∧
      emergencyUnlock 5000 activeState =
        (true,
         { activeState with
           isActive := false
           startedAt := none
           currentSessionTime := 0
           totalFocusTime := activeState.totalFocusTime + (5000 - s)
           sessions := activeState.sessions ++
             [{ id := genSessionId 5000, startedAt := s, endedAt := 5000,
                duration := 5000 - s, tasksCompleted := 0,
                wasUnlockedNaturally := false }]
           lastEmergencyUnlock := some 5000 }) ∧
      ∀ now2, (emergencyUnlock now2 (emergencyUnlock 5000 activeState).2).1 = false) ∧
    initialFocusModeState.emergencyUnlockCooldown = 1800000 :=
  ⟨⟨((emergency_unlock_cooldown 5000 initialFocusModeState storeInv_initial).1).1,
    ((emergency_unlock_cooldown 5000 initialFocusModeState storeInv_initial).1).2.1
      (by decide)⟩,
   ((emergency_unlock_cooldown 5000 activeState
      ⟨fun h => absurd h (by decide), fun _ => by decide,
       fun s hs => by
         simp [activeState, initialFocusModeState] at hs
         omega,
       fun l hl => by simp [activeState, initialFocusModeState] at hl⟩).1).2.2
     (by decide),
   ((emergency_unlock_cooldown 5000 initialFocusModeState storeInv_initial)).2⟩

/-- Claim C8: on a state with an active session (a set, positive `startedAt`
timestamp — the reachable-state invariant), `stopFocusMode` appends exactly
one `FocusSession` record with `endedAt = now`,
`duration = endedAt − startedAt`, the given `tasksCompleted` and
`wasUnlockedNaturally = wasNatural`, adds the duration to `totalFocusTime`,
and resets `isActive`, `startedAt` and `currentSessionTime`; on a state with
`startedAt` unset it is a no-op on the whole state. -/
theorem stop_session_accounting :
    ∀ (now : Int) (wasNatural : Bool) (tc : Int) (st : FocusModeState),
      (∀ s, StoreInv st → st.startedAt = some s →
        stopFocusMode now wasNatural tc st =
          { st with
            isActive := false
            startedAt := none
            currentSessionTime := 0
            totalFocusTime := st.totalFocusTime + (now - s)
            sessions := st.sessions ++
              [{ id := genSessionId now, startedAt := s, endedAt := now,
                 duration := now - s, tasksCompleted := tc,
                 wasUnlockedNaturally := wasNatural }] }) ∧
      (st.startedAt = none → stopFocusMode now wasNatural tc st = st) := by
  intro now wasNatural tc st
  constructor
  · intro s hinv hst
    have hs : s ≠ 0 := by
      have := hinv.2.2.1 s hst
      omega
    exact stopFocusMode_active now wasNatural tc st s hst hs
  · exact stopFocusMode_inactive now wasNatural tc st

/-- Claim C8 witness: stopping the active witness state one minute in
appends the session record; stopping the inactive initial state changes
nothing. -/
theorem stop_session_accounting_witness :
    stopFocusMode 61000 true 2 activeState =
      { activeState with
        isActive := false
        startedAt := none
        currentSessionTime := 0
        totalFocusTime := activeState.totalFocusTime + (61000 - 1000)
        sessions := activeState.sessions ++
          [{ id := genSessionId 61000, startedAt := 1000, endedAt := 61000,
             duration := 61000 - 1000, tasksCompleted := 2,
             wasUnlockedNaturally := true }] } ∧
    stopFocusMode 61000 true 2 initialFocusModeState = initialFocusModeState :=
  ⟨(stop_session_accounting 61000 true 2 activeState).1 1000
      ⟨fun h => absurd h (by decide), fun _ => by decide,
       fun s hs => by
         simp [activeState, initialFocusModeState] at hs
         omega,
       fun l hl => by simp [activeState, initialFocusModeState] at hl⟩ rfl,
   (stop_session_accounting 61000 true 2 initialFocusModeState).2 rfl⟩

/-- Claim C9: every reachable focus-mode store state satisfies the lifecycle
invariants `isActive = false → startedAt = null ∧ currentSessionTime = 0`
and `isActive = true → startedAt ≠ null`, and every store operation only ever
appends to the session history — no existing `FocusSession` record is edited
or removed. -/
theorem focus_store_invariants :
    (∀ st : FocusModeState, Reachable st →
      (st.isActive = false → st.startedAt = none ∧ st.currentSessionTime = 0) ∧
      (st.isActive = true → st.startedAt ≠ none)) ∧
    (∀ (op : FocusOp) (st : FocusModeState),
      ∃ tail, (op.apply st).sessions = st.sessions ++ tail) := by
  constructor
  · intro st h
    have hinv := reachable_storeInv st h
    exact ⟨hinv.1, hinv.2.1⟩
  · intro op st
    cases op with
    | startOp now => exact ⟨[], by simp [FocusOp.apply, startFocusMode]⟩
    | stopOp now wn tc => exact stopFocusMode_sessions now wn tc st
    | tickOp now =>
      exact ⟨[], by simp [FocusOp.apply, updateSessionTime_sessions]⟩
    | emergencyOp now =>
      simp only [FocusOp.apply]
      unfold emergencyUnlock
      by_cases hcan : canEmergencyUnlock now st = true
      · rw [if_pos hcan]
        obtain ⟨tail, htail⟩ := stopFocusMode_sessions now false 0 st
        exact ⟨tail, htail⟩
      · rw [if_neg hcan]
        exact ⟨[], by simp⟩
    | resetOp => exact ⟨[], by simp [FocusOp.apply, resetFocusMode]⟩
    | addAppOp id name executableName isEnabled =>
      exact ⟨[], by simp [FocusOp.apply, addRestrictedApp]⟩
    | removeAppOp id => exact ⟨[], by simp [FocusOp.apply, removeRestrictedApp]⟩
    | toggleAppOp id => exact ⟨[], by simp [FocusOp.apply, toggleRestrictedApp]⟩
    | updateAppOp id patch => exact ⟨[], by simp [FocusOp.apply, updateRestrictedApp]⟩

/-- Claim C9 witness: the invariants at the (reachable) initial state, and
session-append-only for a concrete stop operation on the active witness
state. -/
theorem focus_store_invariants_witness :
    (initialFocusModeState.startedAt = none ∧
      initialFocusModeState.currentSessionTime = 0) ∧
    ∃ tail, ((FocusOp.stopOp 61000 true 2).apply activeState).sessions =
      activeState.sessions ++ tail :=
  ⟨(focus_store_invariants.1 initialFocusModeState Reachable.init).1 rfl,
   focus_store_invariants.2 (FocusOp.stopOp 61000 true 2) activeState⟩

end FocusLock
